import Mathlib

/-!
Verification model of the DataverseFieldUpdateTracker expression-parsing and
field-provenance engine.

The definitions below are a shallow embedding of the Python sources
`src/expression_parser.py` and `src/cloudflow_operations.py`:

* `Val` models the dynamic Python values flowing through the engine: JSON
  scalars, lists and dicts, plus the two tagged dict shapes produced by the
  expression AST transformer (`function_call` and `property_access` dicts are
  modelled by the dedicated constructors `fnCall` and `propAcc`).
* `basicParse` models `ExpressionParser.parse_expression` (the regex tier);
  the eight compiled patterns are modelled by a small literal-pattern DSL with
  leftmost-search semantics mirroring Python `re.search`.
* `tokenize`/`parseExpr` model the Lark LALR grammar `EXPRESSION_GRAMMAR`
  together with `ExpressionTransformer` (the transformer is fused into the
  parser: it only strips quotes, converts numbers, and builds the tagged
  dicts).  `extractSemanticInfo` models
  `AdvancedExpressionParser._extract_semantic_info` and `advParse` models
  `AdvancedExpressionParser.parse_expression` with `ast_enabled = True`.
* `registerVariable`/`trackModification`/... model `VariableTracker`.
* `isDataverseUpdateAction`/`analyzeUpdateAction` model `UpdateActionAnalyzer`,
  `parseClientdata` models `CloudFlowParser.parse_clientdata` on the already
  deserialized JSON value (JSON text decoding is external I/O and is not
  modelled), `getFlowTriggerType` models
  `CloudFlowOperations.get_flow_trigger_type`, and `extractMetadata` models
  `CloudFlowMetadataExtractor.extract_metadata`.

Python exceptions that the source catches mid-extraction (attribute errors on
non-dict values, unhashable dict/list keys, bad subscripts) are modelled with
`Except`, where the error carries the partially built result exactly as the
source's `except` blocks do; the error message texts themselves are not
modelled, only which branch is taken.
-/

/-- Accessor tags produced by the expression transformer: `dot_accessor`,
`bracket_accessor` and `optional_bracket_accessor`. -/
inductive AccTy where
  | dot
  | bracket
  | optionalBracket
deriving DecidableEq, Repr

/-- Dynamic Python values used by the engine: JSON-like data plus the two
tagged dict shapes built by `ExpressionTransformer` (`function_call` and
`property_access`).  Floats are carried as their literal text; no claim
depends on float arithmetic. -/
inductive Val where
  | vnull
  | vbool (b : Bool)
  | vint (n : Int)
  | vfloat (s : String)
  | vstr (s : String)
  | vlist (xs : List Val)
  | vdict (fs : List (String × Val))
  | fnCall (name : String) (args : List Val) (accs : List (AccTy × Val))
  | propAcc (base : Val) (accs : List (AccTy × Val))
deriving Repr

/-- Python whitespace class `\s` (ASCII part), as used by `str.strip` and the
`\s*` pieces of the regex patterns. -/
def isPySpace (c : Char) : Bool :=
  c == ' ' || c == '\t' || c == '\n' || c == '\r' || c == '\x0b' || c == '\x0c'

/-- Python `str.strip()`: drop whitespace from both ends. -/
def pyStrip (s : String) : String :=
  ⟨((s.data.dropWhile isPySpace).reverse.dropWhile isPySpace).reverse⟩

/-- Character-list prefix test (used to model `str.startswith` and literal
matching inside the regex patterns). -/
def lStarts : List Char → List Char → Bool
  | [], _ => true
  | _ :: _, [] => false
  | p :: ps, c :: cs => p == c && lStarts ps cs

/-- Python `s.startswith(t)`. -/
def pyStarts (s t : String) : Bool := lStarts t.data s.data

/-- Python `needle in hay` on strings (substring containment). -/
def pySubstr (needle hay : String) : Bool :=
  let rec go : List Char → Bool
    | [] => lStarts needle.data []
    | c :: cs => lStarts needle.data (c :: cs) || go cs
  go hay.data

/-- Python `str.replace(old, new)` with empty `new`, i.e. remove every
occurrence of `old` (used for `action_type.replace('Variable', '')`). -/
def pyRemoveAll (old : String) (s : String) : String :=
  if old.data.isEmpty then s else ⟨go s.data.length s.data⟩
where
  go : Nat → List Char → List Char
    | 0, cs => cs
    | _ + 1, [] => []
    | fuel + 1, c :: cs =>
      if lStarts old.data (c :: cs) then go fuel ((c :: cs).drop old.data.length)
      else c :: go fuel cs

/-- Truthiness of a Python value (`if value:`).  A float literal is falsy
exactly when its numeric value is zero, i.e. all of its digits are `0`. -/
def truthy : Val → Bool
  | .vnull => false
  | .vbool b => b
  | .vint n => n != 0
  | .vfloat s => s.data.any (fun c => c.isDigit && c != '0')
  | .vstr s => !s.data.isEmpty
  | .vlist xs => !xs.isEmpty
  | .vdict fs => !fs.isEmpty
  | .fnCall _ _ _ => true
  | .propAcc _ _ => true

/-- Hashability of a Python value: lists and dicts (including the AST dicts)
raise `TypeError` when used as dict keys or set elements. -/
def hashable : Val → Bool
  | .vlist _ => false
  | .vdict _ => false
  | .fnCall _ _ _ => false
  | .propAcc _ _ => false
  | _ => true

/- Structural equality of Python values (`==` as used by dict-key lookup and
set membership).  Defined by well-founded recursion over the nested value
tree. -/
mutual

def valBeq : Val → Val → Bool
  | .vnull, .vnull => true
  | .vbool x, .vbool y => x == y
  | .vint x, .vint y => x == y
  | .vfloat x, .vfloat y => x == y
  | .vstr x, .vstr y => x == y
  | .vlist xs, .vlist ys => valListBeq xs ys
  | .vdict fs, .vdict gs => valFieldsBeq fs gs
  | .fnCall n1 a1 c1, .fnCall n2 a2 c2 =>
      n1 == n2 && valListBeq a1 a2 && valAccsBeq c1 c2
  | .propAcc b1 c1, .propAcc b2 c2 => valBeq b1 b2 && valAccsBeq c1 c2
  | _, _ => false

def valListBeq : List Val → List Val → Bool
  | [], [] => true
  | a :: as, b :: bs => valBeq a b && valListBeq as bs
  | _, _ => false

def valFieldsBeq : List (String × Val) → List (String × Val) → Bool
  | [], [] => true
  | (k1, v1) :: as, (k2, v2) :: bs => k1 == k2 && valBeq v1 v2 && valFieldsBeq as bs
  | _, _ => false

def valAccsBeq : List (AccTy × Val) → List (AccTy × Val) → Bool
  | [], [] => true
  | (t1, v1) :: as, (t2, v2) :: bs => t1 == t2 && valBeq v1 v2 && valAccsBeq as bs
  | _, _ => false

end

@[simp] theorem valBeq_vstr (s t : String) : valBeq (.vstr s) (.vstr t) = (s == t) := by
  simp [valBeq]

@[simp] theorem valBeq_vstr_vnull (s : String) : valBeq (.vstr s) .vnull = false := by
  simp [valBeq]

/-- A single apostrophe, kept out of string literals. -/
def apos : String := "\x27"

/- Python `repr` of a value, approximated: strings are rendered between
single quotes without escaping, floats by their stored literal text.  Only
the f-string for variable provenance in `extract_metadata` and
`str(expression)` for non-string expressions consume this; no claim inspects
those texts. -/
mutual

def pyRepr : Val → String
  | .vnull => "None"
  | .vbool true => "True"
  | .vbool false => "False"
  | .vint n => toString n
  | .vfloat s => s
  | .vstr s => apos ++ s ++ apos
  | .vlist xs => "[" ++ pyReprList xs ++ "]"
  | .vdict fs => "\x7b" ++ pyReprFields fs ++ "\x7d"
  | .fnCall n args accs =>
      "\x7b" ++ apos ++ "type" ++ apos ++ ": " ++ apos ++ "function_call" ++ apos ++ ", " ++
        apos ++ "function" ++ apos ++ ": " ++ apos ++ n ++ apos ++ ", " ++
        apos ++ "arguments" ++ apos ++ ": [" ++ pyReprList args ++ "]" ++
        (if accs.isEmpty then "" else
          ", " ++ apos ++ "accessors" ++ apos ++ ": [" ++ pyReprAccs accs ++ "]") ++ "\x7d"
  | .propAcc base accs =>
      "\x7b" ++ apos ++ "type" ++ apos ++ ": " ++ apos ++ "property_access" ++ apos ++ ", " ++
        apos ++ "base" ++ apos ++ ": " ++ pyRepr base ++ ", " ++
        apos ++ "accessors" ++ apos ++ ": [" ++ pyReprAccs accs ++ "]" ++ "\x7d"

def pyReprList : List Val → String
  | [] => ""
  | [x] => pyRepr x
  | x :: xs => pyRepr x ++ ", " ++ pyReprList xs

def pyReprFields : List (String × Val) → String
  | [] => ""
  | [(k, v)] => apos ++ k ++ apos ++ ": " ++ pyRepr v
  | (k, v) :: fs => apos ++ k ++ apos ++ ": " ++ pyRepr v ++ ", " ++ pyReprFields fs

def pyReprAccs : List (AccTy × Val) → String
  | [] => ""
  | (t, v) :: fs =>
      let tag := match t with
        | .dot => "dot"
        | .bracket => "bracket"
        | .optionalBracket => "optional_bracket"
      "\x7b" ++ apos ++ "accessor_type" ++ apos ++ ": " ++ apos ++ tag ++ apos ++ ", " ++
        apos ++ "value" ++ apos ++ ": " ++ pyRepr v ++ "\x7d" ++
        (if fs.isEmpty then "" else ", " ++ pyReprAccs fs)

end

/-- Python `str()` of a value. -/
def pyStr : Val → String
  | .vstr s => s
  | v => pyRepr v

@[simp] theorem pyStr_vstr (s : String) : pyStr (.vstr s) = s := rfl

/-- Lookup in a Python dict modelled as an association list with distinct
keys (`d[k]` / the key-presence part of `d.get(k)`). -/
def dGet (fs : List (String × Val)) (k : String) : Option Val :=
  match fs with
  | [] => none
  | (k2, v) :: rest => if k == k2 then some v else dGet rest k

/-- Python `d.get(k, default)` on a dict value. -/
def dGetD (fs : List (String × Val)) (k : String) (dflt : Val) : Val :=
  (dGet fs k).getD dflt

example : truthy (.vstr "") = false := by decide
example : truthy (.vdict []) = false := by decide
example : pyStrip "  @x " = "@x" := by decide
example : pyStarts "body/foo" "body/" = true := by decide
example : pyRemoveAll "Variable" "SetVariable" = "Set" := by decide
example : pySubstr "OnNewItems" "XOnNewItemsY" = true := by decide

/-- Result dict of `parse_expression` / `_extract_semantic_info`.  `Option`
distinguishes key presence: `none` means the key is absent from the dict,
`some .vnull` means the key is present with Python `None`. -/
structure SemInfo where
  source_type : String := "unknown"
  field_ref : Option Val := none
  field_path : Option (List Val) := none
  variable_name : Option Val := none
  step_name : Option Val := none
  parameter_name : Option Val := none
  static_value : Option Val := none
  identifier : Option String := none
  function : Option String := none
  arguments : Option (List Val) := none
  expression : Option String := none
  ast : Option Val := none
  ast_data : Option Val := none
deriving Repr

/-- The single-quote character. -/
def sqc : Char := Char.ofNat 39

/-- The double-quote character. -/
def dqc : Char := Char.ofNat 34

/-- Pieces of the eight compiled regexes of `ExpressionParser.PATTERNS`:
a literal run, `\s*`, `\??`, a quote class `['"]`, and the capturing group
`([^'"]+)`.  Every pattern in the source is a concatenation of exactly these
pieces, with the capture always followed by a quote, so greedy matching
without backtracking coincides with the regex semantics. -/
inductive Pat where
  | lit (s : String)
  | ws
  | optQ
  | quote
  | cap
deriving Repr

/-- Match a pattern list against a prefix of `cs`, returning the captured
groups in order. -/
def matchAt : List Pat → List Char → Option (List String)
  | [], _ => some []
  | .lit s :: ps, cs =>
      if lStarts s.data cs then matchAt ps (cs.drop s.data.length) else none
  | .ws :: ps, cs => matchAt ps (cs.dropWhile isPySpace)
  | .optQ :: ps, cs =>
      match cs with
      | c :: rest => if c == '?' then matchAt ps rest else matchAt ps (c :: rest)
      | [] => matchAt ps []
  | .quote :: ps, cs =>
      match cs with
      | c :: rest => if c == sqc || c == dqc then matchAt ps rest else none
      | [] => none
  | .cap :: ps, cs =>
      let content := cs.takeWhile (fun c => !(c == sqc || c == dqc))
      if content.isEmpty then none
      else (matchAt ps (cs.drop content.length)).map (fun caps => String.mk content :: caps)

/-- Python `re.search`: find the leftmost position where the pattern
matches. -/
def reSearch (ps : List Pat) (s : String) : Option (List String) :=
  go s.data
where
  go : List Char → Option (List String)
    | [] => matchAt ps []
    | c :: cs =>
      match matchAt ps (c :: cs) with
      | some caps => some caps
      | none => go cs

/-- Pattern `trigger_body`: `@triggerBody\(\)\s*\??\s*\[\s*['"]([^'"]+)['"]\s*\]`. -/
def patTriggerBody : List Pat :=
  [.lit "@triggerBody()", .ws, .optQ, .ws, .lit "[", .ws, .quote, .cap, .quote, .ws, .lit "]"]

/-- Pattern `trigger_outputs`: `@triggerOutputs\(\)\s*\??\s*\[\s*['"]body/([^'"]+)['"]\s*\]`. -/
def patTriggerOutputs : List Pat :=
  [.lit "@triggerOutputs()", .ws, .optQ, .ws, .lit "[", .ws, .quote, .lit "body/", .cap,
   .quote, .ws, .lit "]"]

/-- Pattern `variables`: `@variables\(\s*['"]([^'"]+)['"]\s*\)`. -/
def patVariables : List Pat :=
  [.lit "@variables(", .ws, .quote, .cap, .quote, .ws, .lit ")"]

/-- Pattern `outputs`: `@outputs\(\s*['"]([^'"]+)['"]\s*\)`. -/
def patOutputs : List Pat :=
  [.lit "@outputs(", .ws, .quote, .cap, .quote, .ws, .lit ")"]

/-- Pattern `outputs_field`:
`@outputs\(\s*['"]([^'"]+)['"]\s*\)\s*\??\s*\[\s*['"]body/([^'"]+)['"]\s*\]`. -/
def patOutputsField : List Pat :=
  [.lit "@outputs(", .ws, .quote, .cap, .quote, .ws, .lit ")", .ws, .optQ, .ws, .lit "[",
   .ws, .quote, .lit "body/", .cap, .quote, .ws, .lit "]"]

/-- Pattern `parameters`: `@parameters\(\s*['"]([^'"]+)['"]\s*\)`. -/
def patParameters : List Pat :=
  [.lit "@parameters(", .ws, .quote, .cap, .quote, .ws, .lit ")"]

/-- Pattern `body_field`:
`@body\(\s*['"]([^'"]+)['"]\s*\)\s*\??\s*\[\s*['"]([^'"]+)['"]\s*\]`. -/
def patBodyField : List Pat :=
  [.lit "@body(", .ws, .quote, .cap, .quote, .ws, .lit ")", .ws, .optQ, .ws, .lit "[",
   .ws, .quote, .cap, .quote, .ws, .lit "]"]

/-- Pattern `item_field`: `@item\(\)\s*\??\s*\[\s*['"]([^'"]+)['"]\s*\]`. -/
def patItemField : List Pat :=
  [.lit "@item()", .ws, .optQ, .ws, .lit "[", .ws, .quote, .cap, .quote, .ws, .lit "]"]

/-- Result dict built for a `trigger_body` or `trigger_outputs` match. -/
def mkTrigger (caps : List String) (estr : String) : SemInfo :=
  { source_type := "trigger", field_ref := some (.vstr (caps.headD "")),
    expression := some estr }

/-- Result dict built for a `variables` match. -/
def mkVariable (caps : List String) (estr : String) : SemInfo :=
  { source_type := "variable", variable_name := some (.vstr (caps.headD "")),
    expression := some estr }

/-- Result dict built for an `outputs_field` or `body_field` match (two
captures: step name and field name). -/
def mkOutputField (caps : List String) (estr : String) : SemInfo :=
  { source_type := "output", step_name := some (.vstr (caps.headD "")),
    field_ref := some (.vstr ((caps.drop 1).headD "")), expression := some estr }

/-- Result dict built for an `outputs` match without a field bracket. -/
def mkOutput (caps : List String) (estr : String) : SemInfo :=
  { source_type := "output", step_name := some (.vstr (caps.headD "")),
    expression := some estr }

/-- Result dict built for an `item_field` match. -/
def mkItem (caps : List String) (estr : String) : SemInfo :=
  { source_type := "item", field_ref := some (.vstr (caps.headD "")),
    expression := some estr }

/-- Result dict built for a `parameters` match. -/
def mkParameter (caps : List String) (estr : String) : SemInfo :=
  { source_type := "parameter", parameter_name := some (.vstr (caps.headD "")),
    expression := some estr }

/-- Model of `ExpressionParser.parse_expression` (the Phase 1 regex tier).
The eight patterns are tried with `re.search` in exactly the order of the
source: `trigger_body`, `trigger_outputs`, `variables`, `outputs_field`,
`outputs`, `body_field`, `item_field`, `parameters`; the first that matches
determines the result, and if none match the result is `unknown` carrying
the original expression. -/
def basicParse (expression : Val) : SemInfo :=
  if !truthy expression then
    { source_type := "static", static_value := some .vnull, expression := some "" }
  else
    let estr := pyStr expression
    if !(pyStarts (pyStrip estr) "@") then
      { source_type := "static", static_value := some expression, expression := some estr }
    else
      match reSearch patTriggerBody estr with
      | some caps => mkTrigger caps estr
      | none =>
      match reSearch patTriggerOutputs estr with
      | some caps => mkTrigger caps estr
      | none =>
      match reSearch patVariables estr with
      | some caps => mkVariable caps estr
      | none =>
      match reSearch patOutputsField estr with
      | some caps => mkOutputField caps estr
      | none =>
      match reSearch patOutputs estr with
      | some caps => mkOutput caps estr
      | none =>
      match reSearch patBodyField estr with
      | some caps => mkOutputField caps estr
      | none =>
      match reSearch patItemField estr with
      | some caps => mkItem caps estr
      | none =>
      match reSearch patParameters estr with
      | some caps => mkParameter caps estr
      | none => { source_type := "unknown", expression := some estr }

/-- An ordered fallback rule: a pattern and the dict builder for its
captures. -/
abbrev FallbackRule := List Pat × (List String → String → SemInfo)

/-- First-match-wins application of an ordered rule list; an empty remainder
yields the `unknown` result. -/
def applyRules : List FallbackRule → String → SemInfo
  | [], estr => { source_type := "unknown", expression := some estr }
  | (p, b) :: rest, estr =>
    match reSearch p estr with
    | some caps => b caps estr
    | none => applyRules rest estr

/-- The fallback rules in the order the source code checks them. -/
def codeRuleList : List FallbackRule :=
  [(patTriggerBody, mkTrigger), (patTriggerOutputs, mkTrigger), (patVariables, mkVariable),
   (patOutputsField, mkOutputField), (patOutputs, mkOutput), (patBodyField, mkOutputField),
   (patItemField, mkItem), (patParameters, mkParameter)]

/-- Modelled from the spec: the fallback rules in the order the specification
lists them ("trigger-body bracket access, trigger-outputs with body/ prefix,
variables(...), outputs(...) with and without a trailing field bracket,
parameters(...), body(...) with field bracket, item() with field bracket"),
i.e. with `parameters` checked before `body_field` and `item_field`. -/
def specRuleList : List FallbackRule :=
  [(patTriggerBody, mkTrigger), (patTriggerOutputs, mkTrigger), (patVariables, mkVariable),
   (patOutputsField, mkOutputField), (patOutputs, mkOutput), (patParameters, mkParameter),
   (patBodyField, mkOutputField), (patItemField, mkItem)]

example : (basicParse (.vstr "@triggerBody()?[\x27name\x27]")).source_type = "trigger" := rfl
example : (basicParse (.vstr "@triggerBody()?[\x27name\x27]")).field_ref
    = some (.vstr "name") := rfl
example : (basicParse (.vstr "@triggerOutputs()?[\x27body/acc\x27]")).field_ref
    = some (.vstr "acc") := rfl
example : (basicParse (.vstr "John Doe")).static_value = some (.vstr "John Doe") := rfl
example : (basicParse (.vstr "@outputs(\x27S\x27)?[\x27body/f\x27]")).field_ref
    = some (.vstr "f") := rfl
example : (basicParse (.vstr "@item()?[\x27q\x27]")).source_type = "item" := rfl
example : (basicParse (.vstr "@nonsense!!")).source_type = "unknown" := rfl

/-- Tokens of the expression grammar `EXPRESSION_GRAMMAR`: punctuation,
`IDENTIFIER`, `STRING` (quotes already stripped, as the transformer does),
`NUMBER` (kept as literal text), `BOOLEAN` and `NULL`. -/
inductive Tok where
  | tAt
  | tLParen
  | tRParen
  | tLBrack
  | tRBrack
  | tDot
  | tQuestion
  | tComma
  | tIdent (s : String)
  | tStr (s : String)
  | tNum (s : String)
  | tTrue
  | tFalse
  | tNull
deriving DecidableEq, Repr

/-- Transformed value of a `NUMBER` token: `int(...)` when it has no decimal
point, `float(...)` otherwise (floats keep their literal text). -/
def numVal (s : String) : Val :=
  if s.data.contains '.' then .vfloat s else .vint ((s.toInt?).getD 0)

/-- Lexer for `EXPRESSION_GRAMMAR`: skips whitespace, recognizes the
punctuation of the grammar, `STRING` = single- or double-quoted runs with
quotes stripped, `NUMBER` = `-?\d+(\.\d+)?`, identifiers
`[a-zA-Z_][a-zA-Z0-9_]*` with the keyword terminals `true`, `false`,
`null` taking precedence over `IDENTIFIER` on an exact match.  Any other
character is a lexical error. -/
def tokenizeGo : Nat → List Char → Option (List Tok)
  | 0, [] => some []
  | 0, _ :: _ => none
  | _ + 1, [] => some []
  | fuel + 1, c :: cs =>
    if isPySpace c then tokenizeGo fuel cs
    else if c == '@' then (tokenizeGo fuel cs).map (Tok.tAt :: ·)
    else if c == '(' then (tokenizeGo fuel cs).map (Tok.tLParen :: ·)
    else if c == ')' then (tokenizeGo fuel cs).map (Tok.tRParen :: ·)
    else if c == '[' then (tokenizeGo fuel cs).map (Tok.tLBrack :: ·)
    else if c == ']' then (tokenizeGo fuel cs).map (Tok.tRBrack :: ·)
    else if c == '.' then (tokenizeGo fuel cs).map (Tok.tDot :: ·)
    else if c == '?' then (tokenizeGo fuel cs).map (Tok.tQuestion :: ·)
    else if c == ',' then (tokenizeGo fuel cs).map (Tok.tComma :: ·)
    else if c == sqc then
      let content := cs.takeWhile (fun x => !(x == sqc))
      match cs.drop content.length with
      | _ :: rest => (tokenizeGo fuel rest).map (Tok.tStr ⟨content⟩ :: ·)
      | [] => none
    else if c == dqc then
      let content := cs.takeWhile (fun x => !(x == dqc))
      match cs.drop content.length with
      | _ :: rest => (tokenizeGo fuel rest).map (Tok.tStr ⟨content⟩ :: ·)
      | [] => none
    else if c.isDigit || (c == '-' && (cs.headD ' ').isDigit) then
      let intPart := (c :: cs).takeWhile (fun x => x.isDigit || x == '-')
      let afterInt := (c :: cs).drop intPart.length
      match afterInt with
      | '.' :: d :: _ =>
        if d.isDigit then
          let frac := (afterInt.drop 1).takeWhile Char.isDigit
          (tokenizeGo fuel ((afterInt.drop 1).drop frac.length)).map
            (Tok.tNum ⟨intPart ++ ['.'] ++ frac⟩ :: ·)
        else (tokenizeGo fuel afterInt).map (Tok.tNum ⟨intPart⟩ :: ·)
      | _ => (tokenizeGo fuel afterInt).map (Tok.tNum ⟨intPart⟩ :: ·)
    else if c.isAlpha || c == '_' then
      let ident := (c :: cs).takeWhile (fun x => x.isAlphanum || x == '_')
      let rest := (c :: cs).drop ident.length
      let tok := if ident = "true".data then Tok.tTrue
        else if ident = "false".data then Tok.tFalse
        else if ident = "null".data then Tok.tNull
        else Tok.tIdent ⟨ident⟩
      (tokenizeGo fuel rest).map (tok :: ·)
    else none

/-- Tokenize a whole expression string. -/
def tokenize (s : String) : Option (List Tok) := tokenizeGo (s.data.length + 1) s.data

/-- Transformed value of a `selector` (string, number, or identifier); the
transformer returns strings for `STRING`/`IDENTIFIER` selectors and int/float
for `NUMBER` selectors. -/
def parseSel : List Tok → Option (Val × List Tok)
  | .tStr s :: rest => some (.vstr s, rest)
  | .tNum s :: rest => some (numVal s, rest)
  | .tIdent s :: rest => some (.vstr s, rest)
  | _ => none

/- Recursive-descent parser equivalent to the LALR grammar (one token of
lookahead decides every production) fused with `ExpressionTransformer`:
`function_call_with_accessors` builds `fnCall`, `identifier_with_accessors`
builds `propAcc` over the identifier string, `identifier_only` yields the
bare string, `parenthesized_expression` with accessors builds `propAcc`,
and the `"@"` prefix is transparent (the anonymous token is filtered, so
`expression` always returns its single child). -/
mutual

def parseExpr : Nat → List Tok → Option (Val × List Tok)
  | 0, _ => none
  | fuel + 1, toks =>
    match toks with
    | .tAt :: rest => parsePrim fuel rest
    | .tIdent _ :: _ => parsePrim fuel toks
    | .tLParen :: _ => parsePrim fuel toks
    | .tStr s :: rest => some (.vstr s, rest)
    | .tNum s :: rest => some (numVal s, rest)
    | .tTrue :: rest => some (.vbool true, rest)
    | .tFalse :: rest => some (.vbool false, rest)
    | .tNull :: rest => some (.vnull, rest)
    | _ => none

def parsePrim : Nat → List Tok → Option (Val × List Tok)
  | 0, _ => none
  | fuel + 1, toks =>
    match toks with
    | .tIdent f :: .tLParen :: rest =>
      match rest with
      | .tRParen :: rest2 =>
        match parseAccs fuel rest2 with
        | some (accs, rest3) => some (.fnCall f [] accs, rest3)
        | none => none
      | _ =>
        match parseArgs fuel rest with
        | some (args, .tRParen :: rest2) =>
          match parseAccs fuel rest2 with
          | some (accs, rest3) => some (.fnCall f args accs, rest3)
          | none => none
        | _ => none
    | .tIdent f :: rest =>
      match parseAccs fuel rest with
      | some ([], _) => some (.vstr f, rest)
      | some (accs, rest2) => some (.propAcc (.vstr f) accs, rest2)
      | none => none
    | .tLParen :: rest =>
      match parseExpr fuel rest with
      | some (e, .tRParen :: rest2) =>
        match parseAccs fuel rest2 with
        | some ([], _) => some (e, rest2)
        | some (accs, rest3) => some (.propAcc e accs, rest3)
        | none => none
      | _ => none
    | _ => none

def parseArgs : Nat → List Tok → Option (List Val × List Tok)
  | 0, _ => none
  | fuel + 1, toks =>
    match parseExpr fuel toks with
    | some (e, .tComma :: rest) =>
      match parseArgs fuel rest with
      | some (es, rest2) => some (e :: es, rest2)
      | none => none
    | some (e, rest) => some ([e], rest)
    | none => none

def parseAccs : Nat → List Tok → Option (List (AccTy × Val) × List Tok)
  | 0, _ => none
  | fuel + 1, toks =>
    match toks with
    | .tDot :: .tIdent s :: rest =>
      match parseAccs fuel rest with
      | some (accs, rest2) => some ((AccTy.dot, .vstr s) :: accs, rest2)
      | none => none
    | .tDot :: _ => none
    | .tQuestion :: .tLBrack :: rest =>
      match parseSel rest with
      | some (v, .tRBrack :: rest2) =>
        match parseAccs fuel rest2 with
        | some (accs, rest3) => some ((AccTy.optionalBracket, v) :: accs, rest3)
        | none => none
      | _ => none
    | .tQuestion :: _ => none
    | .tLBrack :: rest =>
      match parseSel rest with
      | some (v, .tRBrack :: rest2) =>
        match parseAccs fuel rest2 with
        | some (accs, rest3) => some ((AccTy.bracket, v) :: accs, rest3)
        | none => none
      | _ => none
    | _ => some ([], toks)

end

/-- Model of `self.parser.parse(expression)` followed by
`self.transformer.transform(tree)`: `none` is a `LarkError` (lexical or
syntactic), `some ast` the transformed AST.  The whole token stream must be
consumed, as Lark requires for the `start` rule. -/
def larkParse (s : String) : Option Val :=
  match tokenize s with
  | none => none
  | some toks =>
    match parseExpr (4 * (toks.length + 1)) toks with
    | some (v, []) => some v
    | _ => none

/-- Model of `AdvancedExpressionParser._extract_field_refs_from_accessors`:
collect truthy accessor values, stripping a leading `body/` from string
values. -/
def extractFieldRefs : List (AccTy × Val) → List Val
  | [] => []
  | (_, v) :: rest =>
    if truthy v then
      (match v with
       | .vstr s => if pyStarts s "body/" then .vstr (s.drop 5) else .vstr s
       | other => other) :: extractFieldRefs rest
    else extractFieldRefs rest

/-- Dict-shaped values (Python `isinstance(x, dict)`): plain dicts and the
two tagged AST dict shapes. -/
def isDictVal : Val → Bool
  | .vdict _ => true
  | .fnCall _ _ _ => true
  | .propAcc _ _ => true
  | _ => false

/-- Model of `AdvancedExpressionParser._extract_semantic_info`.  The
`at_prefix` branch of the source is unreachable (the anonymous `"@"` token
is filtered from the Lark tree before transformation), and plain `vdict`
values never occur in transformer output, so they take the
unknown-structure branch. -/
def extractSemanticInfo : Val → SemInfo
  | .vstr s => { source_type := "identifier", identifier := some s }
  | .fnCall f args accs =>
    let result : SemInfo :=
      if f == "triggerBody" || f == "triggerOutputs" then
        { source_type := "trigger", function := some f }
      else if f == "variables" then
        { source_type := "variable", variable_name := some (args.headD .vnull) }
      else if f == "outputs" || f == "body" then
        { source_type := "output", step_name := some (args.headD .vnull), function := some f }
      else if f == "parameters" then
        { source_type := "parameter", parameter_name := some (args.headD .vnull) }
      else if f == "item" then
        { source_type := "item", function := some f }
      else
        { source_type := "function", function := some f, arguments := some args }
    if accs.isEmpty then result
    else
      let frs := extractFieldRefs accs
      if frs.isEmpty then result
      else
        { result with
          field_ref := some (frs.headD .vnull),
          field_path := if frs.length > 1 then some frs else none }
  | .propAcc base accs =>
    let baseInfo : SemInfo :=
      match base with
      | .vstr s => { source_type := "identifier", identifier := some s }
      | b2 => if isDictVal b2 then extractSemanticInfo b2 else { source_type := "unknown" }
    let frs := extractFieldRefs accs
    if frs.isEmpty then baseInfo
    else
      { baseInfo with
        field_ref := some (frs.headD .vnull),
        field_path := if frs.length > 1 then some frs else baseInfo.field_path }
  | .vdict fs => { source_type := "unknown", ast_data := some (.vdict fs) }
  | v => { source_type := "static", static_value := some v }

/-- Model of `AdvancedExpressionParser.parse_expression` with
`ast_enabled = True`: try the AST tier on strings whose stripped form starts
with `@`; on success return the semantic info extended with the original
expression and the AST; on a parse error, or for any other value, fall back
to the Phase 1 regex tier. -/
def advParse (expression : Val) : SemInfo :=
  match expression with
  | .vstr s =>
    if pyStarts (pyStrip s) "@" then
      match larkParse s with
      | some ast => { extractSemanticInfo ast with expression := some s, ast := some ast }
      | none => basicParse (.vstr s)
    else basicParse (.vstr s)
  | v => basicParse v

example :
    larkParse ("@outputs(" ++ apos ++ "Step1" ++ apos ++ ")?[" ++ apos ++ "body/a" ++ apos
      ++ "]?[" ++ apos ++ "b" ++ apos ++ "]")
    = some (.fnCall "outputs" [.vstr "Step1"]
        [(AccTy.optionalBracket, .vstr "body/a"), (AccTy.optionalBracket, .vstr "b")]) := rfl

example :
    (advParse (.vstr ("@outputs(" ++ apos ++ "Step1" ++ apos ++ ")?[" ++ apos ++ "body/a"
      ++ apos ++ "]?[" ++ apos ++ "b" ++ apos ++ "]"))).field_path
    = some [.vstr "a", .vstr "b"] := rfl

example : (advParse (.vstr ("@variables(" ++ apos ++ " x " ++ apos ++ ")"))).variable_name
    = some (.vstr " x ") := rfl

example : (advParse (.vstr ("@variables( " ++ apos ++ "x" ++ apos ++ " )"))).variable_name
    = some (.vstr "x") := rfl

example : (advParse (.vstr ("@item()?[" ++ apos ++ "foo" ++ apos ++ "]"))).source_type
    = "item" := rfl

example : (advParse (.vstr ("@item()?[" ++ apos ++ "foo" ++ apos ++ "]"))).field_ref
    = some (.vstr "foo") := rfl

example :
    larkParse ("@parameters(" ++ apos ++ "p" ++ apos ++ ") @body(" ++ apos ++ "s" ++ apos
      ++ ")?[" ++ apos ++ "f" ++ apos ++ "]") = none := rfl

/-- One entry of a `VariableTracker` modification list. -/
structure Modification where
  action : String
  operation : String
  value : Val
deriving Repr

/-- One `VariableTracker` registry entry. -/
structure VarEntry where
  declared_in : Val
  initial_value : Val
  value_type : Val
  modifications : List Modification
deriving Repr

/-- The `VariableTracker.variables` dict: an insertion-ordered association
list keyed by Python value equality (keys are the `name` values read from the
action inputs, strings in well-formed flows). -/
abbrev Tracker := List (Val × VarEntry)

/-- Dict lookup in the tracker registry. -/
def trLookup (tr : Tracker) (k : Val) : Option VarEntry :=
  match tr with
  | [] => none
  | (k2, e) :: rest => if valBeq k k2 then some e else trLookup rest k

/-- Dict assignment `self.variables[k] = e`: overwrite in place, append when
new. -/
def trSet (tr : Tracker) (k : Val) (e : VarEntry) : Tracker :=
  match tr with
  | [] => [(k, e)]
  | (k2, e2) :: rest => if valBeq k k2 then (k2, e) :: rest else (k2, e2) :: trSet rest k e

/-- Append a modification record to an existing entry
(`self.variables[var_name]['modifications'].append(...)`). -/
def appendMod (tr : Tracker) (k : Val) (m : Modification) : Tracker :=
  match tr with
  | [] => []
  | (k2, e) :: rest =>
    if valBeq k k2 then (k2, { e with modifications := e.modifications ++ [m] }) :: rest
    else (k2, e) :: appendMod rest k m

/-- Model of `VariableTracker.register_variable`: unconditionally replace the
whole entry with a fresh one whose modification list is empty. -/
def registerVariable (tr : Tracker) (var_name : Val) (action_name : String)
    (initial_value : Val) (value_type : Val) : Tracker :=
  trSet tr var_name
    { declared_in := .vstr action_name, initial_value := initial_value,
      value_type := value_type, modifications := [] }

/-- Model of `VariableTracker.track_modification`: when the name is unknown,
first synthesize a placeholder entry with `declared_in = None`,
`initial_value = None`, `value_type = 'Unknown'` and no modifications (a
logged warning, not an error); then append the modification record. -/
def trackModification (tr : Tracker) (var_name : Val) (action_name : String)
    (operation : String) (new_value : Val) : Tracker :=
  let tr2 :=
    match trLookup tr var_name with
    | some _ => tr
    | none =>
      trSet tr var_name
        { declared_in := .vnull, initial_value := .vnull,
          value_type := .vstr "Unknown", modifications := [] }
  appendMod tr2 var_name
    { action := action_name, operation := operation, value := new_value }

/-- Declaration info returned by `VariableTracker.get_variable_source`. -/
structure VarSource where
  declared_in : Val
  initial_value : Val
  value_type : Val
deriving Repr

/-- Model of `VariableTracker.get_variable_source`: `none` models the empty
(falsy) dict returned for unknown names. -/
def getVariableSource (tr : Tracker) (k : Val) : Option VarSource :=
  (trLookup tr k).map (fun e =>
    { declared_in := e.declared_in, initial_value := e.initial_value,
      value_type := e.value_type })

/-- Model of `VariableTracker.is_variable_declared`. -/
def isVariableDeclared (tr : Tracker) (k : Val) : Bool := (trLookup tr k).isSome

/-- Model of `VariableTracker.get_modification_count`: 0 for unknown names. -/
def getModificationCount (tr : Tracker) (k : Val) : Nat :=
  match trLookup tr k with
  | none => 0
  | some e => e.modifications.length

/-- The four qualifying connector operation ids of
`UpdateActionAnalyzer.is_dataverse_update_action`. -/
def updateOpIds : List String :=
  ["UpdateRecord", "CreateRecord", "UpdateOnlyRecord", "CreateOnlyRecord"]

/-- Model of `ExpressionParser.is_expression`: strings whose stripped form
starts with `@`; any non-string value is not an expression. -/
def isExpressionVal : Val → Bool
  | .vstr s => pyStarts (pyStrip s) "@"
  | _ => false

/-- Model of `UpdateActionAnalyzer.is_dataverse_update_action`.  Attribute
errors on non-dict `inputs`/`host` are caught by the method's own
`except` and yield `False`, as does a non-string or unlisted operation id. -/
def isDataverseUpdateAction (action_def : Val) : Bool :=
  match action_def with
  | .vdict afs =>
    match dGetD afs "type" (.vstr "") with
    | .vstr ty =>
      if ty == "OpenApiConnection" then
        match dGetD afs "inputs" (.vdict []) with
        | .vdict ifs =>
          match dGetD ifs "host" (.vdict []) with
          | .vdict hfs =>
            match dGetD hfs "operationId" (.vstr "") with
            | .vstr op => updateOpIds.contains op
            | _ => false
          | _ => false
        | _ => false
      else false
    | _ => false
  | _ => false

/-- Per-field record built by the loop body of
`UpdateActionAnalyzer.analyze_update_action`; `Option` fields model key
presence in the `field_info` dict. -/
structure FieldInfo where
  field_name : String
  source_type : String
  expression : String
  static_value : Option Val := none
  source_detail : Option Val := none
  source_field : Option Val := none
deriving Repr

/-- Model of the per-field loop body of `analyze_update_action` (lines
342-372 of `cloudflow_operations.py`): strip the `item/` prefix, parse the
value expression, then attach the source details that the parsed
`source_type` calls for.  Note there is no branch for `source_type ==
'item'`, so an item-sourced field never receives `source_field`. -/
def mkFieldInfo (parse : Val → SemInfo) (field_key : String) (field_value : Val) :
    FieldInfo :=
  let field_name := if pyStarts field_key "item/" then field_key.drop 5 else field_key
  let parsed := parse field_value
  let base : FieldInfo :=
    { field_name := field_name, source_type := parsed.source_type,
      expression := parsed.expression.getD (pyStr field_value) }
  if parsed.source_type == "static" then
    { base with static_value := some (parsed.static_value.getD .vnull) }
  else if parsed.source_type == "variable" then
    { base with source_detail := some (parsed.variable_name.getD (.vstr "")) }
  else if parsed.source_type == "output" then
    let b2 := { base with source_detail := some (parsed.step_name.getD (.vstr "")) }
    match parsed.field_ref with
    | some fr => { b2 with source_field := some fr }
    | none => b2
  else if parsed.source_type == "trigger" then
    match parsed.field_ref with
    | some fr => { base with source_field := some fr }
    | none => base
  else if parsed.source_type == "parameter" then
    { base with source_detail := some (parsed.parameter_name.getD (.vstr "")) }
  else base

/-- Result of `analyze_update_action`; `entity_name_expression` carries the
raw expression when the entity reference is dynamic (`None` otherwise). -/
structure ActionAnalysis where
  action_name : String
  action_type : String
  entity_name : Val
  entity_name_expression : Option Val
  modified_fields : List FieldInfo
deriving Repr

/-- Model of `UpdateActionAnalyzer.analyze_update_action`.  `none` models the
Python `None` result: either the action is not a qualifying write, or an
exception inside the method (non-dict `parameters`, a truthy non-dict `item`
value) was caught and logged.  When the entity-reference parameter is itself
an expression, `entity_name` becomes `'dynamic'` and the raw expression is
preserved in `entity_name_expression`. -/
def analyzeUpdateAction (parse : Val → SemInfo) (action_name : String) (action_def : Val) :
    Option ActionAnalysis :=
  if !isDataverseUpdateAction action_def then none
  else
    match action_def with
    | .vdict afs =>
      match dGetD afs "inputs" (.vdict []) with
      | .vdict ifs =>
        let host := dGetD ifs "host" (.vdict [])
        let action_type :=
          match host with
          | .vdict hfs =>
            match dGetD hfs "operationId" (.vstr "") with
            | .vstr op =>
              if op == "UpdateRecord" || op == "UpdateOnlyRecord" then "Update" else "Create"
            | _ => "Create"
          | _ => "Create"
        match dGetD ifs "parameters" (.vdict []) with
        | .vdict ps =>
          let entity0 := dGetD ps "entityName" (.vstr "unknown")
          let entity_name := if isExpressionVal entity0 then Val.vstr "dynamic" else entity0
          let entity_name_expression := if isExpressionVal entity0 then some entity0 else none
          let item0 := dGetD ps "item" (.vdict [])
          let item1 :=
            if !truthy item0 then Val.vdict (ps.filter (fun kv => pyStarts kv.1 "item/"))
            else item0
          match item1 with
          | .vdict ifields =>
            some { action_name := action_name, action_type := action_type,
                   entity_name := entity_name,
                   entity_name_expression := entity_name_expression,
                   modified_fields := ifields.map (fun kv => mkFieldInfo parse kv.1 kv.2) }
          | _ => none
        | _ => none
      | _ => none
    | _ => none

/-- Convenience constructor for a Dataverse `OpenApiConnection` action
definition with the given operation id and parameters dict (used in concrete
test inputs and witnesses). -/
def mkActionDef (op : String) (ps : List (String × Val)) : Val :=
  .vdict [("type", .vstr "OpenApiConnection"),
          ("inputs", .vdict [("host", .vdict [("operationId", .vstr op)]),
                             ("parameters", .vdict ps)])]

example :
    analyzeUpdateAction advParse "Update_row"
      (mkActionDef "UpdateOnlyRecord"
        [("entityName", .vstr "contacts"),
         ("item/firstname", .vstr ("@triggerBody()?[" ++ apos ++ "firstname" ++ apos ++ "]"))])
    = some { action_name := "Update_row", action_type := "Update",
             entity_name := .vstr "contacts", entity_name_expression := none,
             modified_fields := [
               { field_name := "firstname", source_type := "trigger",
                 expression := "@triggerBody()?[" ++ apos ++ "firstname" ++ apos ++ "]",
                 source_field := some (.vstr "firstname") }] } := rfl

example :
    (analyzeUpdateAction advParse "A"
      (mkActionDef "CreateRecord"
        [("entityName", .vstr ("@variables(" ++ apos ++ "targetEntity" ++ apos ++ ")"))])
      ).map (fun a => a.entity_name) = some (.vstr "dynamic") := rfl

example :
    (analyzeUpdateAction advParse "A"
      (mkActionDef "UpdateRecord" [("item", .vdict [("fullname", .vstr "John Doe")])])
      ).map (fun a => a.modified_fields.map (fun f => f.static_value))
    = some [some (.vstr "John Doe")] := rfl

/-- Python `v == "s"` for a dynamic value against a string literal: true only
for an equal string (no value of another type equals a string). -/
def eqStr (v : Val) (s : String) : Bool :=
  match v with
  | .vstr t => t == s
  | _ => false

/-- Result of `CloudFlowParser.parse_clientdata` on the deserialized
clientdata value: the extracted `properties.definition` (and
`properties.connectionReferences`), or the error message.  A non-dict value
at either level raises `AttributeError`, caught by the method's `except`
into a generic parse error; an absent or falsy `definition` yields the
dedicated message. -/
inductive ClientResult where
  | ok (definition : Val) (connection_references : Val)
  | err (msg : String)
deriving Repr

/-- Placeholder for a Python exception message (the model tracks which
branch is taken, not the text `str(e)`). -/
def pyExcMsg : String := "Parse error"

/-- Model of `CloudFlowParser.parse_clientdata` (after JSON decoding). -/
def parseClientdata (data : Val) : ClientResult :=
  match data with
  | .vdict fs =>
    match dGetD fs "properties" (.vdict []) with
    | .vdict pfs =>
      let definition := dGetD pfs "definition" (.vdict [])
      let connection_references := dGetD pfs "connectionReferences" (.vdict [])
      if truthy definition then .ok definition connection_references
      else .err "No definition found in clientdata"
    | _ => .err pyExcMsg
  | _ => .err pyExcMsg

/-- Model of `CloudFlowOperations.get_flow_trigger_type`.  Every exception
raised inside (attribute errors on non-dict values, `in` on a non-string
operation id) is caught by the method's own `except` into `"Unknown"`; an
unrecognized string trigger type is echoed back via the f-string. -/
def getFlowTriggerType (definition : Val) : String :=
  match definition with
  | .vdict dfs =>
    if dfs.isEmpty then "Unknown"
    else
      match dGet dfs "triggers" with
      | none => "Unknown"
      | some triggersV =>
        if !truthy triggersV then "Unknown"
        else
          match triggersV with
          | .vdict ((_, trigger) :: _) =>
            match trigger with
            | .vdict tfs =>
              let ty := dGetD tfs "type" (.vstr "")
              let kd := dGetD tfs "kind" (.vstr "")
              if eqStr ty "Request" && eqStr kd "Button" then "Manual (Button)"
              else if eqStr ty "Request" then "Manual"
              else if eqStr ty "OpenApiConnectionWebhook" then
                match dGetD tfs "inputs" (.vdict []) with
                | .vdict infs =>
                  match dGetD infs "host" (.vdict []) with
                  | .vdict hfs =>
                    match dGetD hfs "operationId" (.vstr "") with
                    | .vstr op =>
                      if pySubstr "SubscribeWebhookTrigger" op then
                        "Automated - When a record is created or updated"
                      else if pySubstr "OnNewItems" op then
                        "Automated - When a record is created"
                      else "Automated (Webhook)"
                    | _ => "Unknown"
                  | _ => "Unknown"
                | _ => "Unknown"
              else if eqStr ty "Recurrence" then "Scheduled"
              else pyStr ty
            | _ => "Unknown"
          | _ => "Unknown"
  | _ => "Unknown"

/-- One entry appended to `result['modified_fields'][field_name]` by
`extract_metadata`. -/
structure Contribution where
  action_name : String
  source_type : String
  source_detail : Val
  expression : String
deriving Repr

/-- The aggregate result dict of `extract_metadata`.  Dicts are modelled as
insertion-ordered association lists and the two sets as duplicate-free lists
(Python set iteration order is not modelled; only membership is used).  The
field `vars` models `result['variables']` (`variables` is reserved in
Lean). -/
structure Metadata where
  flow_id : String
  flow_name : String
  flow_type : String := "Cloud Flow"
  trigger_type : String := "Unknown"
  actions : List String := []
  modified_fields : List (String × List Contribution) := []
  read_fields : List Val := []
  vars : Tracker := []
  entities : List Val := []
  parse_error : Option String := none
deriving Repr

/-- Append a contribution to `modified_fields[k]`, creating the key with an
empty list first when absent (as lines 531-532 do). -/
def mfAppend (mf : List (String × List Contribution)) (k : String) (c : Contribution) :
    List (String × List Contribution) :=
  match mf with
  | [] => [(k, [c])]
  | (k2, cs) :: rest =>
    if k == k2 then (k2, cs ++ [c]) :: rest else (k2, cs) :: mfAppend rest k c

/-- Python `set.add`: insert if no equal element is present. -/
def setInsert (l : List Val) (v : Val) : List Val :=
  if l.any (fun x => valBeq x v) then l else l ++ [v]

/-- Model of the entity bookkeeping of `extract_metadata` (lines 521-524):
add the entity unless it is the string `'dynamic'` or `'unknown'`; adding an
unhashable value raises (propagated to the outer `except`). -/
def addEntity (m : Metadata) (e : Val) : Except Unit Metadata :=
  let excluded :=
    match e with
    | .vstr s => s == "dynamic" || s == "unknown"
    | _ => false
  if excluded then .ok m
  else if !hashable e then .error ()
  else .ok { m with entities := setInsert m.entities e }

/-- Model of lines 534-539 of `extract_metadata`: when the field's source is
a variable with a truthy detail, decorate the detail with the declaration
info from the tracker (an unhashable detail value raises on the dict
lookup). -/
def resolveSourceDetail (tr : Tracker) (fi : FieldInfo) : Except Unit Val :=
  let sd0 := fi.source_detail.getD (.vstr "")
  if fi.source_type == "variable" && truthy sd0 then
    if !hashable sd0 then .error ()
    else
      match getVariableSource tr sd0 with
      | some vs =>
        .ok (.vstr (pyStr sd0 ++ " (declared in " ++ pyStr vs.declared_in ++ ")"))
      | none => .ok sd0
  else .ok sd0

/-- Model of the per-field merge of `extract_metadata` (lines 527-550):
decorate a variable source with its declaration info, append the
contribution, and record `source_field` (when present) into `read_fields`. -/
def mergeField (tr : Tracker) (action_name : String) (m : Metadata) (fi : FieldInfo) :
    Except Unit Metadata :=
  match resolveSourceDetail tr fi with
  | .error e => .error e
  | .ok sd =>
    match fi.source_field with
    | some r =>
      .ok { m with
            modified_fields := mfAppend m.modified_fields fi.field_name
              { action_name := action_name, source_type := fi.source_type,
                source_detail := sd, expression := fi.expression },
            read_fields := setInsert m.read_fields r }
    | none =>
      .ok { m with
            modified_fields := mfAppend m.modified_fields fi.field_name
              { action_name := action_name, source_type := fi.source_type,
                source_detail := sd, expression := fi.expression } }

/-- Fold `mergeField` over the analysed fields; an exception carries the
partially merged result, exactly as the source's mutable `result` dict
would be left. -/
def foldFields (tr : Tracker) (action_name : String) (m : Metadata) :
    List FieldInfo → Except Metadata Metadata
  | [] => .ok m
  | fi :: rest =>
    match mergeField tr action_name m fi with
    | .ok m2 => foldFields tr action_name m2 rest
    | .error _ => .error m

/-- Model of the variable bookkeeping of `extract_metadata` (lines 483-515):
`InitializeVariable` registers the first entry of `inputs.variables` when it
has a truthy name; the five modification action types track a modification
with the `Variable` suffix stripped from the operation name.  Structurally
bad inputs raise (non-dict `inputs` or first entry, truthy non-list
`variables`, unhashable name). -/
def trackVarStep (tr : Tracker) (action_name : String) (afs : List (String × Val)) :
    Except Unit Tracker :=
  match dGetD afs "type" (.vstr "") with
  | .vstr t =>
    if t == "InitializeVariable" then
      match dGetD afs "inputs" (.vdict []) with
      | .vdict ifs =>
        let variablesV := dGetD ifs "variables" (.vlist [])
        if !truthy variablesV then .ok tr
        else
          match variablesV with
          | .vlist (vi :: _) =>
            match vi with
            | .vdict vfs =>
              let vname := dGetD vfs "name" (.vstr "")
              let vvalue := dGetD vfs "value" (.vstr "")
              let vtype := dGetD vfs "type" (.vstr "")
              if truthy vname then
                if hashable vname then
                  .ok (registerVariable tr vname action_name vvalue vtype)
                else .error ()
              else .ok tr
            | _ => .error ()
          | _ => .error ()
      | _ => .error ()
    else if ["SetVariable", "IncrementVariable", "DecrementVariable",
             "AppendToArrayVariable", "AppendToStringVariable"].contains t then
      match dGetD afs "inputs" (.vdict []) with
      | .vdict ifs =>
        let vname := dGetD ifs "name" (.vstr "")
        let vvalue := dGetD ifs "value" (.vstr "")
        if truthy vname then
          if hashable vname then
            .ok (trackModification tr vname action_name (pyRemoveAll "Variable" t) vvalue)
          else .error ()
        else .ok tr
      | _ => .error ()
    else .ok tr
  | _ => .ok tr

/-- Body of one iteration of the action loop of `extract_metadata` (lines
481-550), after the action name has been recorded in `m`: do the variable
bookkeeping, then analyse the action and merge the analysis; exceptions
carry the partially updated result with `parse_error` set. -/
def processActionCore (parse : Val → SemInfo) (m : Metadata) (tr : Tracker)
    (nm : String) (ad : Val) : Except Metadata (Metadata × Tracker) :=
  match ad with
  | .vdict afs =>
    match trackVarStep tr nm afs with
    | .error _ => .error { m with parse_error := some pyExcMsg }
    | .ok tr2 =>
      match analyzeUpdateAction parse nm (.vdict afs) with
      | none => .ok (m, tr2)
      | some anal =>
        match addEntity m anal.entity_name with
        | .error _ => .error { m with parse_error := some pyExcMsg }
        | .ok m2 =>
          match foldFields tr2 nm m2 anal.modified_fields with
          | .ok m3 => .ok (m3, tr2)
          | .error m3 => .error { m3 with parse_error := some pyExcMsg }
  | _ => .error { m with parse_error := some pyExcMsg }

/-- Model of one iteration of the action loop of `extract_metadata` (lines
479-550): record the action name, then run the loop body. -/
def processAction (parse : Val → SemInfo) (st : Metadata × Tracker) (a : String × Val) :
    Except Metadata (Metadata × Tracker) :=
  processActionCore parse { st.1 with actions := st.1.actions ++ [a.1] } st.2 a.1 a.2

/-- Fold `processAction` over the action map in declaration order. -/
def foldActions (parse : Val → SemInfo) (st : Metadata × Tracker) :
    List (String × Val) → Except Metadata (Metadata × Tracker)
  | [] => .ok st
  | a :: rest =>
    match processAction parse st a with
    | .ok st2 => foldActions parse st2 rest
    | .error m => .error m

/-- Model of `CloudFlowMetadataExtractor.extract_metadata` on the
deserialized clientdata value: parse the clientdata envelope, classify the
trigger, iterate the actions, and export the tracker; any structural failure
is recorded in `parse_error` with the rest of the result as built so far. -/
def extractMetadata (parse : Val → SemInfo) (flow_id flow_name : String)
    (clientdata : Val) : Metadata :=
  match parseClientdata clientdata with
  | .err e => { flow_id := flow_id, flow_name := flow_name, parse_error := some e }
  | .ok definition _ =>
    match definition with
    | .vdict dfs =>
      match dGetD dfs "actions" (.vdict []) with
      | .vdict acts =>
        match foldActions parse
            ({ flow_id := flow_id, flow_name := flow_name,
               trigger_type := getFlowTriggerType (.vdict dfs) }, []) acts with
        | .ok (m, tr) => { m with vars := tr }
        | .error m => m
      | _ =>
        { flow_id := flow_id, flow_name := flow_name,
          trigger_type := getFlowTriggerType (.vdict dfs), parse_error := some pyExcMsg }
    | _ =>
      { flow_id := flow_id, flow_name := flow_name,
        trigger_type := getFlowTriggerType definition, parse_error := some pyExcMsg }

/- Reflexivity of Python value equality, by mutual induction over the value
tree. -/
mutual

theorem valBeq_refl : ∀ v : Val, valBeq v v = true
  | .vnull => by simp [valBeq]
  | .vbool b => by simp [valBeq]
  | .vint n => by simp [valBeq]
  | .vfloat s => by simp [valBeq]
  | .vstr s => by simp [valBeq]
  | .vlist xs => by simp [valBeq]; exact valListBeq_refl xs
  | .vdict fs => by simp [valBeq]; exact valFieldsBeq_refl fs
  | .fnCall n args accs => by
      simp [valBeq]; exact ⟨valListBeq_refl args, valAccsBeq_refl accs⟩
  | .propAcc b accs => by simp [valBeq]; exact ⟨valBeq_refl b, valAccsBeq_refl accs⟩

theorem valListBeq_refl : ∀ xs : List Val, valListBeq xs xs = true
  | [] => by simp [valListBeq]
  | x :: xs => by simp [valListBeq]; exact ⟨valBeq_refl x, valListBeq_refl xs⟩

theorem valFieldsBeq_refl : ∀ fs : List (String × Val), valFieldsBeq fs fs = true
  | [] => by simp [valFieldsBeq]
  | (k, v) :: fs => by simp [valFieldsBeq]; exact ⟨valBeq_refl v, valFieldsBeq_refl fs⟩

theorem valAccsBeq_refl : ∀ fs : List (AccTy × Val), valAccsBeq fs fs = true
  | [] => by simp [valAccsBeq]
  | (t, v) :: fs => by simp [valAccsBeq]; exact ⟨valBeq_refl v, valAccsBeq_refl fs⟩

end

/-- Python `x in s` for a set modelled as a duplicate-free list: an element
equal (in the Python sense) to `v` is present. -/
def valMem (v : Val) (l : List Val) : Bool := l.any (fun x => valBeq x v)

theorem valBeq_eq_vstr (e : Val) (t : String) :
    valBeq e (.vstr t) = (match e with | .vstr s => s == t | _ => false) := by
  cases e <;> simp [valBeq]

theorem mem_valMem {v : Val} {l : List Val} (h : v ∈ l) : valMem v l = true :=
  List.any_eq_true.mpr ⟨v, h, valBeq_refl v⟩

theorem valMem_setInsert_self (l : List Val) (v : Val) :
    valMem v (setInsert l v) = true := by
  unfold setInsert
  by_cases h : l.any (fun x => valBeq x v) = true
  · simp only [h, if_true, valMem]
  · simp only [h, Bool.false_eq_true, if_false, valMem, List.any_append, List.any_cons,
      List.any_nil, valBeq_refl, Bool.or_true, Bool.true_or]

theorem valMem_setInsert_mono {l : List Val} {w : Val} (v : Val)
    (h : valMem w l = true) : valMem w (setInsert l v) = true := by
  unfold setInsert
  by_cases hv : l.any (fun x => valBeq x v) = true
  · simpa [hv, valMem] using h
  · simp only [hv, Bool.false_eq_true, if_false, valMem, List.any_append]
    simp only [valMem] at h
    simp [h]

theorem valMem_setInsert_false {l : List Val} {w : Val} {v : Val}
    (h : valMem w l = false) (hv : valBeq v w = false) :
    valMem w (setInsert l v) = false := by
  unfold setInsert
  by_cases ha : l.any (fun x => valBeq x v) = true
  · simpa [ha, valMem] using h
  · simp only [ha, Bool.false_eq_true, if_false, valMem, List.any_append]
    simp only [valMem] at h
    simp [h, hv]

/-- Lookup after a dict overwrite at the same key finds the fresh entry. -/
theorem trLookup_trSet_self (tr : Tracker) (k : Val) (e : VarEntry)
    (hk : valBeq k k = true) : trLookup (trSet tr k e) k = some e := by
  induction tr with
  | nil => simp [trSet, trLookup, hk]
  | cons kv rest ih =>
    obtain ⟨k2, e2⟩ := kv
    by_cases h : valBeq k k2 = true
    · simp [trSet, trLookup, h]
    · simp only [trSet, h, Bool.false_eq_true, if_false]
      simp [trLookup, h, ih]


/-- Appending a modification to the entry found at `k` updates exactly that
entry. -/
theorem trLookup_appendMod (tr : Tracker) (k : Val) (m : Modification)
    {e : VarEntry} (h : trLookup tr k = some e) :
    trLookup (appendMod tr k m) k
      = some { e with modifications := e.modifications ++ [m] } := by
  induction tr with
  | nil => simp [trLookup] at h
  | cons kv rest ih =>
    obtain ⟨k2, e2⟩ := kv
    by_cases hb : valBeq k k2 = true
    · simp only [trLookup, hb, if_true, Option.some.injEq] at h
      subst h
      simp [appendMod, trLookup, hb]
    · simp only [trLookup, hb, Bool.false_eq_true, if_false] at h
      simp [appendMod, trLookup, hb, ih h]

/-- Invariant of the `entities` set: neither the string `'dynamic'` nor the
string `'unknown'` is a member (in the Python sense). -/
def entOK (l : List Val) : Prop :=
  valMem (.vstr "dynamic") l = false ∧ valMem (.vstr "unknown") l = false

theorem entOK_nil : entOK [] := ⟨rfl, rfl⟩

theorem addEntity_entOK {m m2 : Metadata} {e : Val}
    (h : addEntity m e = .ok m2) (hm : entOK m.entities) : entOK m2.entities := by
  obtain ⟨h1, h2⟩ := hm
  cases e <;>
    simp only [addEntity, hashable, Bool.not_true, Bool.not_false, Bool.false_eq_true,
      if_false, if_true] at h
  case vnull | vbool | vint | vfloat =>
    cases h
    refine ⟨valMem_setInsert_false h1 ?_, valMem_setInsert_false h2 ?_⟩ <;>
      simp [valBeq_eq_vstr]
  case vstr s =>
    split at h
    · cases h
      exact ⟨h1, h2⟩
    · cases h
      rename_i hc
      simp only [Bool.or_eq_true, not_or] at hc
      refine ⟨valMem_setInsert_false h1 ?_, valMem_setInsert_false h2 ?_⟩ <;>
        simp [valBeq_eq_vstr, hc.1, hc.2]
  case vlist | vdict | fnCall | propAcc => cases h


theorem mergeField_ok {tr : Tracker} {nm : String} {m : Metadata} {fi : FieldInfo}
    {m2 : Metadata} (h : mergeField tr nm m fi = .ok m2) :
    m2.entities = m.entities ∧
    m2.read_fields = (match fi.source_field with
      | some r => setInsert m.read_fields r
      | none => m.read_fields) := by
  unfold mergeField at h
  split at h
  · exact Except.noConfusion h
  · split at h <;> rename_i hsf <;> cases h <;> simp [hsf]

theorem foldFields_ok_entities {tr : Tracker} {nm : String} :
    ∀ {fis : List FieldInfo} {m m2 : Metadata},
      foldFields tr nm m fis = .ok m2 → m2.entities = m.entities
  | [], m, m2, h => by
    simp only [foldFields, Except.ok.injEq] at h
    rw [← h]
  | fi :: rest, m, m2, h => by
    simp only [foldFields] at h
    split at h
    · rename_i m' hm'
      rw [foldFields_ok_entities h, (mergeField_ok hm').1]
    · exact Except.noConfusion h

theorem foldFields_err_entities {tr : Tracker} {nm : String} :
    ∀ {fis : List FieldInfo} {m m2 : Metadata},
      foldFields tr nm m fis = .error m2 → m2.entities = m.entities
  | [], m, m2, h => by exact Except.noConfusion h
  | fi :: rest, m, m2, h => by
    simp only [foldFields] at h
    split at h
    · rename_i m' hm'
      rw [foldFields_err_entities h, (mergeField_ok hm').1]
    · cases h
      rfl

theorem mergeField_read_mem {tr : Tracker} {nm : String} {m : Metadata} {fi : FieldInfo}
    {m2 : Metadata} {r : Val} (h : mergeField tr nm m fi = .ok m2)
    (hr : fi.source_field = some r) : valMem r m2.read_fields = true := by
  have h2 := (mergeField_ok h).2
  rw [hr] at h2
  rw [h2]
  exact valMem_setInsert_self m.read_fields r

theorem mergeField_read_mono {tr : Tracker} {nm : String} {m : Metadata} {fi : FieldInfo}
    {m2 : Metadata} {r : Val} (h : mergeField tr nm m fi = .ok m2)
    (hr : valMem r m.read_fields = true) : valMem r m2.read_fields = true := by
  have h2 := (mergeField_ok h).2
  cases hsf : fi.source_field with
  | none => rw [hsf] at h2; rw [h2]; exact hr
  | some v => rw [hsf] at h2; rw [h2]; exact valMem_setInsert_mono v hr

theorem foldFields_read_mono {tr : Tracker} {nm : String} :
    ∀ {fis : List FieldInfo} {m m2 : Metadata} {r : Val},
      foldFields tr nm m fis = .ok m2 → valMem r m.read_fields = true →
      valMem r m2.read_fields = true
  | [], m, m2, r, h, hr => by
    simp only [foldFields, Except.ok.injEq] at h
    rw [← h]; exact hr
  | fi :: rest, m, m2, r, h, hr => by
    simp only [foldFields] at h
    split at h
    · rename_i m' hm'
      exact foldFields_read_mono h (mergeField_read_mono hm' hr)
    · exact Except.noConfusion h

theorem foldFields_read_adds {tr : Tracker} {nm : String} :
    ∀ {fis : List FieldInfo} {m m2 : Metadata} {fi : FieldInfo} {r : Val},
      foldFields tr nm m fis = .ok m2 → fi ∈ fis → fi.source_field = some r →
      valMem r m2.read_fields = true
  | [], _, _, fi, _, _, hmem, _ => absurd hmem (List.not_mem_nil fi)
  | f0 :: rest, m, m2, fi, r, h, hmem, hsf => by
    simp only [foldFields] at h
    split at h
    · rename_i m' hm'
      rcases List.mem_cons.mp hmem with heq | htail
      · subst heq
        exact foldFields_read_mono h (mergeField_read_mem hm' hsf)
      · exact foldFields_read_adds h htail hsf
    · exact Except.noConfusion h

/-- Invariant transport through the `Except` result of one action step. -/
def entOKE : Except Metadata (Metadata × Tracker) → Prop
  | .ok (m, _) => entOK m.entities
  | .error m => entOK m.entities

theorem processActionCore_entOK (parse : Val → SemInfo) (m : Metadata) (tr : Tracker)
    (nm : String) (ad : Val) (hm : entOK m.entities) :
    entOKE (processActionCore parse m tr nm ad) := by
  unfold processActionCore
  split
  · split
    · simpa [entOKE] using hm
    · split
      · simpa [entOKE] using hm
      · split
        · simpa [entOKE] using hm
        · rename_i m2 hadd
          have hm2 : entOK m2.entities := addEntity_entOK hadd hm
          split
          · rename_i m3 hff
            simpa [entOKE, foldFields_ok_entities hff] using hm2
          · rename_i m3 hff
            simpa [entOKE, foldFields_err_entities hff] using hm2
  · simpa [entOKE] using hm

theorem processAction_entOK (parse : Val → SemInfo) (st : Metadata × Tracker)
    (a : String × Val) (hm : entOK st.1.entities) :
    entOKE (processAction parse st a) :=
  processActionCore_entOK parse _ _ _ _ (by simpa using hm)

theorem foldActions_entOK (parse : Val → SemInfo) :
    ∀ (acts : List (String × Val)) (st : Metadata × Tracker),
      entOK st.1.entities → entOKE (foldActions parse st acts)
  | [], st, hm => by
    obtain ⟨m, tr⟩ := st
    simpa [foldActions, entOKE] using hm
  | a :: rest, st, hm => by
    simp only [foldActions]
    have hp := processAction_entOK parse st a hm
    split
    · rename_i st2 hst2
      rw [hst2] at hp
      exact foldActions_entOK parse rest st2 hp
    · rename_i m hem
      rw [hem] at hp
      exact hp

theorem foldActions_entOK_ok {parse : Val → SemInfo} {acts : List (String × Val)}
    {st : Metadata × Tracker} {m : Metadata} {tr : Tracker}
    (h : foldActions parse st acts = .ok (m, tr)) (hst : entOK st.1.entities) :
    entOK m.entities := by
  have hfold := foldActions_entOK parse acts st hst
  rw [h] at hfold
  exact hfold

theorem foldActions_entOK_err {parse : Val → SemInfo} {acts : List (String × Val)}
    {st : Metadata × Tracker} {m : Metadata}
    (h : foldActions parse st acts = .error m) (hst : entOK st.1.entities) :
    entOK m.entities := by
  have hfold := foldActions_entOK parse acts st hst
  rw [h] at hfold
  exact hfold

theorem extractMetadata_entOK (parse : Val → SemInfo) (fid fname : String) (cd : Val) :
    entOK (extractMetadata parse fid fname cd).entities := by
  unfold extractMetadata
  split
  · exact ⟨rfl, rfl⟩
  · split
    · split
      · split
        · rename_i m tr hfa
          simpa using foldActions_entOK_ok hfa ⟨rfl, rfl⟩
        · rename_i m hfa
          simpa using foldActions_entOK_err hfa ⟨rfl, rfl⟩
      · exact ⟨rfl, rfl⟩
    · exact ⟨rfl, rfl⟩

/-- The C4 test expression `@outputs('Step1')?['body/a']?['b']`. -/
def chainedOutputsExpr : String :=
  "@outputs(" ++ apos ++ "Step1" ++ apos ++ ")?[" ++ apos ++ "body/a" ++ apos ++ "]?["
    ++ apos ++ "b" ++ apos ++ "]"

/-- Claim C4: resolving `@outputs('Step1')?['body/a']?['b']` with the AST
parser yields source kind output with `step_name = "Step1"`,
`field_ref = "a"` and `field_path = ["a", "b"]` — accessor chains compose
into the full path. -/
theorem c4_accessor_chains_compose :
    (advParse (.vstr chainedOutputsExpr)).source_type = "output" ∧
    (advParse (.vstr chainedOutputsExpr)).step_name = some (.vstr "Step1") ∧
    (advParse (.vstr chainedOutputsExpr)).field_ref = some (.vstr "a") ∧
    (advParse (.vstr chainedOutputsExpr)).field_path = some [.vstr "a", .vstr "b"] :=
  ⟨rfl, rfl, rfl, rfl⟩

/-- Claim C5: for every `triggerOutputs` function-call AST whose sole
bracket selector is the string `"body/foo"` — whatever the argument list
and whichever accessor form carries the selector — semantic extraction
yields a trigger record with `field_ref = "foo"`: the `body/` prefix is
always stripped and never retained. -/
theorem c5_trigger_outputs_body_stripped (args : List Val) (t : AccTy) :
    (extractSemanticInfo (.fnCall "triggerOutputs" args
        [(t, .vstr "body/foo")])).source_type = "trigger" ∧
    (extractSemanticInfo (.fnCall "triggerOutputs" args
        [(t, .vstr "body/foo")])).field_ref = some (.vstr "foo") :=
  ⟨rfl, rfl⟩

/-- Claim C3, counterexample: the empty string does not start with the
sentinel `@`, yet `parse_expression` returns `static_value = None`, not the
original (empty) input value, because of the leading falsiness check. -/
theorem c3_counterexample :
    pyStarts "" "@" = false ∧
    (basicParse (.vstr "")).source_type = "static" ∧
    (basicParse (.vstr "")).static_value ≠ some (.vstr "") ∧
    (advParse (.vstr "")).static_value ≠ some (.vstr "") := by
  refine ⟨rfl, rfl, ?_, ?_⟩
  · intro h
    rw [show (basicParse (.vstr "")).static_value = some Val.vnull from rfl] at h
    simp at h
  · intro h
    rw [show (advParse (.vstr "")).static_value = some Val.vnull from rfl] at h
    simp at h

/-- Claim C3, amended: for every non-empty string whose whitespace-stripped
form does not start with the sentinel `@`, both parser tiers return a
static record whose `static_value` is the original input value, unchanged
(the empty string instead yields `static_value = None`, and a string whose
stripped form starts with `@` is treated as an expression even when the raw
string starts with whitespace). -/
theorem c3_amended (s : String) (hne : s ≠ "")
    (hat : pyStarts (pyStrip s) "@" = false) :
    basicParse (.vstr s)
      = { source_type := "static", static_value := some (.vstr s),
          expression := some s } ∧
    advParse (.vstr s)
      = { source_type := "static", static_value := some (.vstr s),
          expression := some s } := by
  have hd : s.data ≠ [] := by
    intro h
    apply hne
    cases s
    simp at h
    rw [h]
  have ht : truthy (.vstr s) = true := by
    simp [truthy, List.isEmpty_iff, hd]
  have hb : basicParse (.vstr s)
      = { source_type := "static", static_value := some (.vstr s),
          expression := some s } := by
    simp [basicParse, ht, hat]
  exact ⟨hb, by simp [advParse, hat, hb]⟩

/-- Witness for the amended claim C3 at the concrete static input
`"John Doe"`. -/
theorem c3_amended_witness :
    ("John Doe" : String) ≠ "" ∧ pyStarts (pyStrip "John Doe") "@" = false ∧
    basicParse (.vstr "John Doe")
      = { source_type := "static", static_value := some (.vstr "John Doe"),
          expression := some "John Doe" } :=
  ⟨by decide, rfl, (c3_amended "John Doe" (by decide) rfl).1⟩

/-- Claim C8: tracking a modification for a never-registered name does not
raise: it synthesizes a placeholder entry with `declared_in = None` (and
`value_type = 'Unknown'`), appends the modification, and a subsequent
`get_variable_source` lookup reports `declared_in = None`. -/
theorem c8_undeclared_modification_tolerated (tr : Tracker) (name act op : String)
    (v : Val) (h : trLookup tr (.vstr name) = none) :
    trLookup (trackModification tr (.vstr name) act op v) (.vstr name)
      = some { declared_in := .vnull, initial_value := .vnull,
               value_type := .vstr "Unknown",
               modifications := [{ action := act, operation := op, value := v }] } ∧
    getVariableSource (trackModification tr (.vstr name) act op v) (.vstr name)
      = some { declared_in := .vnull, initial_value := .vnull,
               value_type := .vstr "Unknown" } := by
  have hk : valBeq (.vstr name) (.vstr name) = true := by simp
  have h1 := trLookup_trSet_self tr (.vstr name)
    { declared_in := .vnull, initial_value := .vnull, value_type := .vstr "Unknown",
      modifications := [] } hk
  have h2 := trLookup_appendMod _ (.vstr name)
    { action := act, operation := op, value := v } h1
  unfold trackModification
  rw [h]
  refine ⟨h2, ?_⟩
  unfold getVariableSource
  rw [h2]
  simp

/-- Witness for claim C8: a modification of the undeclared name `"x"` on an
empty tracker. -/
theorem c8_witness :
    trLookup [] (.vstr "x") = none ∧
    trLookup (trackModification [] (.vstr "x") "Act" "Set" (.vint 1)) (.vstr "x")
      = some { declared_in := .vnull, initial_value := .vnull,
               value_type := .vstr "Unknown",
               modifications := [{ action := "Act", operation := "Set",
                                   value := .vint 1 }] } :=
  ⟨rfl, (c8_undeclared_modification_tolerated [] "x" "Act" "Set" (.vint 1) rfl).1⟩

/-- Claim C9: re-registering an already-declared variable name replaces the
whole entry, so the modification history is empty immediately afterwards
(`get_modification_count` returns 0) regardless of the previous state. -/
theorem c9_reregistration_clears_history (tr : Tracker) (name act : String)
    (iv tv : Val) :
    getModificationCount (registerVariable tr (.vstr name) act iv tv) (.vstr name)
      = 0 := by
  unfold getModificationCount registerVariable
  rw [trLookup_trSet_self _ _ _ (by simp)]
  rfl

/-- Claim C10: in every result of `extract_metadata`, the `entities` set
contains neither the string `'dynamic'` nor the string `'unknown'`: write
actions with dynamic or missing entity references are excluded from the
set. -/
theorem c10_entities_without_dynamic_or_unknown (parse : Val → SemInfo)
    (fid fname : String) (cd : Val) :
    Val.vstr "dynamic" ∉ (extractMetadata parse fid fname cd).entities ∧
    Val.vstr "unknown" ∉ (extractMetadata parse fid fname cd).entities := by
  have hinv := extractMetadata_entOK parse fid fname cd
  constructor
  · intro hmem
    have hm := mem_valMem hmem
    rw [hinv.1] at hm
    exact Bool.noConfusion hm
  · intro hmem
    have hm := mem_valMem hmem
    rw [hinv.2] at hm
    exact Bool.noConfusion hm

/-- Clientdata whose `properties.definition` is present (and truthy) but has
no `actions` key. -/
def noActionsClientdata : Val :=
  .vdict [("properties", .vdict [("definition",
    .vdict [("triggers", .vdict [])])])]

/-- Claim C1, counterexample: a definition that parses as a container but
has no `actions` key is extracted *successfully* — `parse_error` is not set
(the claim asserts it is); `actions` and `modified_fields` are empty as the
claim says. -/
theorem c1_counterexample :
    dGet [("triggers", Val.vdict [])] "actions" = none ∧
    (extractMetadata advParse "flow-1" "Flow One" noActionsClientdata).parse_error
      = none ∧
    (extractMetadata advParse "flow-1" "Flow One" noActionsClientdata).actions = [] ∧
    (extractMetadata advParse "flow-1" "Flow One" noActionsClientdata).modified_fields
      = [] :=
  ⟨rfl, rfl, rfl, rfl⟩

/-- Claim C1, amended: for every workflow definition that parses as a
non-empty container but has no `actions` key, extraction succeeds with
`parse_error` NOT set, `modified_fields` empty and `actions` an empty list;
`parse_error` is reserved for clientdata whose nested definition is missing
or empty. -/
theorem c1_amended (parse : Val → SemInfo) (fid fname : String)
    (dfs : List (String × Val)) (hne : dfs ≠ [])
    (hact : dGet dfs "actions" = none) :
    (extractMetadata parse fid fname
        (.vdict [("properties", .vdict [("definition", .vdict dfs)])])).parse_error
      = none ∧
    (extractMetadata parse fid fname
        (.vdict [("properties", .vdict [("definition", .vdict dfs)])])).actions = [] ∧
    (extractMetadata parse fid fname
        (.vdict [("properties", .vdict [("definition",
          .vdict dfs)])])).modified_fields = [] := by
  have ht : truthy (.vdict dfs) = true := by
    cases dfs with
    | nil => exact absurd rfl hne
    | cons a l => simp [truthy]
  simp [extractMetadata, parseClientdata, dGetD, dGet, ht, hact, foldActions]

/-- Witness for the amended claim C1 at a concrete definition containing
only a `triggers` key. -/
theorem c1_amended_witness :
    ([("triggers", Val.vdict [])] : List (String × Val)) ≠ [] ∧
    dGet [("triggers", Val.vdict [])] "actions" = none ∧
    (extractMetadata advParse "flow-1" "Flow One"
        (.vdict [("properties", .vdict [("definition",
          .vdict [("triggers", .vdict [])])])])).parse_error = none :=
  ⟨by simp, rfl,
    (c1_amended advParse "flow-1" "Flow One" [("triggers", .vdict [])]
      (by simp) rfl).1⟩

/-- The item-source expression `@item()?['foo']`. -/
def itemFieldExpr : String := "@item()?[" ++ apos ++ "foo" ++ apos ++ "]"

/-- Clientdata with a single create action whose one field value resolves to
an item source carrying `field_ref = "foo"`. -/
def itemFlowClientdata : Val :=
  .vdict [("properties", .vdict [("definition", .vdict [
    ("actions", .vdict [("Create_row", mkActionDef "CreateRecord"
      [("entityName", .vstr "contacts"),
       ("item/afield", .vstr itemFieldExpr)])])])])]

/-- Claim C2, counterexample: a write action field whose resolved
provenance is an *item* source carrying `field_ref = "foo"` does not get
`"foo"` added to `read_fields` — the merge loop only forwards `source_field`
for trigger and output sources, and the analyzer never sets it for item
sources. -/
theorem c2_counterexample :
    (advParse (.vstr itemFieldExpr)).source_type = "item" ∧
    (advParse (.vstr itemFieldExpr)).field_ref = some (.vstr "foo") ∧
    (mkFieldInfo advParse "item/afield" (.vstr itemFieldExpr)).source_field = none ∧
    (extractMetadata advParse "flow-1" "Flow One" itemFlowClientdata).read_fields
      = [] :=
  ⟨rfl, rfl, rfl, rfl⟩

/-- Claim C2, amended: during extraction, for every write action's field
whose resolved provenance is a *trigger or output* source, the analyzer
records the parsed `field_ref` as the field's `source_field` (absent exactly
when `field_ref` is absent), and the merge loop adds every recorded
`source_field` to the result's `read_fields` set; item sources are not
forwarded. -/
theorem c2_amended :
    (∀ (parse : Val → SemInfo) (k : String) (v : Val),
      ((parse v).source_type = "trigger" ∨ (parse v).source_type = "output") →
      (mkFieldInfo parse k v).source_field = (parse v).field_ref) ∧
    (∀ (tr : Tracker) (nm : String) (m m2 : Metadata) (fis : List FieldInfo)
      (fi : FieldInfo) (r : Val),
      foldFields tr nm m fis = .ok m2 → fi ∈ fis → fi.source_field = some r →
      valMem r m2.read_fields = true) := by
  constructor
  · intro parse k v h
    rcases h with h | h
    · simp only [mkFieldInfo, h]
      cases hf : (parse v).field_ref <;> simp [hf]
    · simp only [mkFieldInfo, h]
      cases hf : (parse v).field_ref <;> simp [hf]
  · intro tr nm m m2 fis fi r h hmem hsf
    exact foldFields_read_adds h hmem hsf

/-- The trigger-source expression `@triggerBody()?['bar']`. -/
def triggerBarExpr : String := "@triggerBody()?[" ++ apos ++ "bar" ++ apos ++ "]"

/-- Field info of a trigger-sourced field used by the C2 witness. -/
def triggerBarFieldInfo : FieldInfo :=
  mkFieldInfo advParse "item/x" (.vstr triggerBarExpr)

/-- Initial metadata used by the C2 witness. -/
def c2Meta : Metadata := { flow_id := "flow-1", flow_name := "Flow One" }

/-- Result of merging the single trigger-sourced field of the C2 witness. -/
def c2MetaOut : Metadata :=
  match foldFields [] "Upd" c2Meta [triggerBarFieldInfo] with
  | .ok m => m
  | .error m => m

/-- Witness for the amended claim C2: a trigger-sourced field with
`field_ref = "bar"` gets `source_field = "bar"`, and the merge loop puts
`"bar"` into `read_fields`. -/
theorem c2_amended_witness :
    (mkFieldInfo advParse "item/x" (.vstr triggerBarExpr)).source_field
      = (advParse (.vstr triggerBarExpr)).field_ref ∧
    foldFields [] "Upd" c2Meta [triggerBarFieldInfo] = .ok c2MetaOut ∧
    valMem (.vstr "bar") c2MetaOut.read_fields = true :=
  ⟨c2_amended.1 advParse "item/x" (.vstr triggerBarExpr) (Or.inl rfl),
   rfl,
   c2_amended.2 [] "Upd" c2Meta c2MetaOut [triggerBarFieldInfo]
     triggerBarFieldInfo (.vstr "bar") rfl (List.mem_singleton.mpr rfl) rfl⟩

/-- An expression string that the grammar rejects and in which both the
`parameters` and the `body_field` patterns find a match:
`@parameters('p') @body('s')?['f']`. -/
def mixedFallbackExpr : String :=
  "@parameters(" ++ apos ++ "p" ++ apos ++ ") @body(" ++ apos ++ "s" ++ apos
    ++ ")?[" ++ apos ++ "f" ++ apos ++ "]"

/-- Claim C6, counterexample: AST parsing fails on the input, and the code's
fallback returns an *output* record (the `body_field` rule fires), while the
rule order stated by the claim — `parameters` before `body(...)` — would
return a *parameter* record. -/
theorem c6_counterexample :
    larkParse mixedFallbackExpr = none ∧
    (advParse (.vstr mixedFallbackExpr)).source_type = "output" ∧
    (basicParse (.vstr mixedFallbackExpr)).source_type = "output" ∧
    (applyRules specRuleList mixedFallbackExpr).source_type = "parameter" :=
  ⟨rfl, rfl, rfl, rfl⟩

/-- Claim C6, amended: when AST parsing fails (or is unavailable), the
resolver applies the whole-string pattern rules to the raw text with
`re.search` in the fixed order trigger-body, trigger-outputs with `body/`
prefix, `variables(...)`, `outputs(...)` with a trailing field bracket,
`outputs(...)` without one, `body(...)` with field bracket, `item()` with
field bracket, and `parameters(...)` *last*; the first rule that matches
determines the result, and if none match the result is unknown carrying the
original expression. -/
theorem c6_amended (s : String) (hne : truthy (.vstr s) = true)
    (hat : pyStarts (pyStrip s) "@" = true) :
    basicParse (.vstr s) = applyRules codeRuleList s := by
  simp only [basicParse, hne, hat, Bool.not_true, Bool.false_eq_true, if_false, pyStr,
    applyRules, codeRuleList]

/-- Witness for the amended claim C6 at the concrete expression
`@item()?['q']`. -/
theorem c6_amended_witness :
    truthy (.vstr ("@item()?[" ++ apos ++ "q" ++ apos ++ "]")) = true ∧
    pyStarts (pyStrip ("@item()?[" ++ apos ++ "q" ++ apos ++ "]")) "@" = true ∧
    basicParse (.vstr ("@item()?[" ++ apos ++ "q" ++ apos ++ "]"))
      = applyRules codeRuleList ("@item()?[" ++ apos ++ "q" ++ apos ++ "]") :=
  ⟨rfl, rfl, c6_amended ("@item()?[" ++ apos ++ "q" ++ apos ++ "]") rfl rfl⟩

/-- Claim C7: for every qualifying write action whose entity-reference
parameter is itself an expression, the analysis returns (does not crash,
provided the `item` parameter is absent, falsy, or a dict) with
`entity_name = "dynamic"` and the original expression preserved separately
in `entity_name_expression`; a concrete entity name is never guessed. -/
theorem c7_dynamic_entity_preserved (parse : Val → SemInfo) (nm op s : String)
    (ps : List (String × Val)) (hop : op ∈ updateOpIds)
    (hent : dGet ps "entityName" = some (.vstr s))
    (hexpr : pyStarts (pyStrip s) "@" = true)
    (hitem : ∀ v, dGet ps "item" = some v → truthy v = true →
      ∃ fs, v = Val.vdict fs) :
    (analyzeUpdateAction parse nm (mkActionDef op ps)).isSome = true ∧
    Option.map (fun a => a.entity_name)
      (analyzeUpdateAction parse nm (mkActionDef op ps)) = some (.vstr "dynamic") ∧
    Option.map (fun a => a.entity_name_expression)
      (analyzeUpdateAction parse nm (mkActionDef op ps)) = some (some (.vstr s)) := by
  have hop' : updateOpIds.contains op = true :=
    show updateOpIds.elem op = true from List.elem_iff.mpr hop
  have hdv : isDataverseUpdateAction (mkActionDef op ps) = true := by
    simp [isDataverseUpdateAction, mkActionDef, dGetD, dGet, hop', hop]
  simp only [mkActionDef] at hdv
  cases hi : dGet ps "item" with
  | none =>
    simp [analyzeUpdateAction, hdv, mkActionDef, dGetD, dGet, hent, hexpr,
      isExpressionVal, hi, truthy]
  | some v =>
    by_cases htv : truthy v = true
    · obtain ⟨fs, rfl⟩ := hitem v hi htv
      simp [analyzeUpdateAction, hdv, mkActionDef, dGetD, dGet, hent, hexpr,
        isExpressionVal, hi, htv]
    · simp [analyzeUpdateAction, hdv, mkActionDef, dGetD, dGet, hent, hexpr,
        isExpressionVal, hi, htv]

/-- Parameters of the C7 witness action: a dynamic entity reference. -/
def dynamicEntityParams : List (String × Val) :=
  [("entityName", .vstr ("@variables(" ++ apos ++ "targetEntity" ++ apos ++ ")"))]

/-- Witness for claim C7 at a concrete `UpdateOnlyRecord` action whose
entity parameter is `@variables('targetEntity')`. -/
theorem c7_witness :
    "UpdateOnlyRecord" ∈ updateOpIds ∧
    dGet dynamicEntityParams "entityName"
      = some (.vstr ("@variables(" ++ apos ++ "targetEntity" ++ apos ++ ")")) ∧
    Option.map (fun a => a.entity_name)
      (analyzeUpdateAction advParse "Update_row"
        (mkActionDef "UpdateOnlyRecord" dynamicEntityParams))
      = some (.vstr "dynamic") :=
  ⟨by decide, rfl,
   (c7_dynamic_entity_preserved advParse "Update_row" "UpdateOnlyRecord"
      ("@variables(" ++ apos ++ "targetEntity" ++ apos ++ ")")
      dynamicEntityParams (by decide) rfl rfl
      (fun v h _ => by simp [dynamicEntityParams, dGet] at h)).2.1⟩
